import Mathlib

/-!
Shallow embedding of the GameBeta prototype's gameplay logic: the
charge-casting controllers (`MagicController` in `src/main.ts` and
`SimpleMagicController` in `src/systems/SimpleMagicController.ts`), the
mana resource pools (`PlayerStats` in `src/systems/CharacterAnimator.ts`
and `PlayerController` in `src/main.ts`), the projectile lifetime loops,
the movement-state resolution and jump of the two `PlayerMovement`
variants, the `InputManager` movement vector, and the `ThirdPersonCamera`
zoom-distance handling.  Numeric state is embedded as exact rationals
(reals where a square root occurs); frame-local mutation becomes explicit
state passing.
-/

set_option maxHeartbeats 1000000

/-- Movement states of the player (`MovementState` enum in
`src/unnamed/part_005`, re-exported from `PlayerMovement`). -/
inductive MovementState where
  | IDLE
  | WALKING
  | RUNNING
  | JUMPING
  | FALLING
  | LANDING
  deriving DecidableEq

/-- RGB color triple (engine `Color3` as used in the spell tables),
embedded with exact rational components. -/
structure Color3 where
  r : ℚ
  g : ℚ
  b : ℚ
  deriving DecidableEq

/-- Spell template (`SpellData` interface, identical in `src/main.ts` and
`src/systems/SimpleMagicController.ts`). -/
structure SpellData where
  name : String
  manaCost : ℚ
  projectileSpeed : ℚ
  projectileSize : ℚ
  damage : ℚ
  color : Color3
  castTime : ℚ
  deriving DecidableEq

/-- The quick water-ball tier of `MagicController` (`src/main.ts`,
`spells.waterBallQuick`). -/
def MagicController.spellsQuick : SpellData :=
  { name := "Water Ball (Rápida)"
    manaCost := 5
    projectileSpeed := 25
    projectileSize := 3/10
    damage := 15
    color := ⟨1/5, 3/5, 1⟩
    castTime := 0 }

/-- The charged water-ball tier of `MagicController` (`src/main.ts`,
`spells.waterBallCharged`); its `castTime` of 2.0 s is the full-charge
duration used by `finishCasting`. -/
def MagicController.spellsCharged : SpellData :=
  { name := "Water Ball (Carregada)"
    manaCost := 20
    projectileSpeed := 15
    projectileSize := 3/5
    damage := 50
    color := ⟨1/10, 2/5, 9/10⟩
    castTime := 2 }

/-- Spell resolution performed by `MagicController.finishCasting`
(`src/main.ts`) on release after holding for `castTime` seconds.  At that
point `currentSpell` is always `spells.waterBallCharged` (the only value
`startCasting` ever assigns), so `this.currentSpell!.castTime` is the
charged tier's `castTime`.  `Math.ceil` becomes `Int.ceil` on `ℚ`. -/
def MagicController.finishSpell (castTime : ℚ) : SpellData :=
  if castTime < 1/5 then
    MagicController.spellsQuick
  else if MagicController.spellsCharged.castTime ≤ castTime then
    MagicController.spellsCharged
  else
    let powerFrac := castTime / MagicController.spellsCharged.castTime
    { MagicController.spellsCharged with
        manaCost :=
          ((⌈MagicController.spellsQuick.manaCost +
              (MagicController.spellsCharged.manaCost -
                MagicController.spellsQuick.manaCost) * powerFrac⌉ : ℤ) : ℚ)
        projectileSize :=
          MagicController.spellsQuick.projectileSize +
            (MagicController.spellsCharged.projectileSize -
              MagicController.spellsQuick.projectileSize) * powerFrac
        damage :=
          ((⌈MagicController.spellsQuick.damage +
              (MagicController.spellsCharged.damage -
                MagicController.spellsQuick.damage) * powerFrac⌉ : ℤ) : ℚ) }

/-- The quick water-ball tier of `SimpleMagicController`
(`src/systems/SimpleMagicController.ts`, `spells.waterBallQuick`). -/
def SimpleMagicController.spellsQuick : SpellData :=
  { name := "Water Ball Rápida"
    manaCost := 10
    projectileSpeed := 15
    projectileSize := 3/10
    damage := 25
    color := ⟨3/10, 7/10, 1⟩
    castTime := 1/5 }

/-- The charged water-ball tier of `SimpleMagicController`
(`src/systems/SimpleMagicController.ts`, `spells.waterBallCharged`). -/
def SimpleMagicController.spellsCharged : SpellData :=
  { name := "Water Ball Carregada"
    manaCost := 25
    projectileSpeed := 12
    projectileSize := 3/5
    damage := 60
    color := ⟨1/5, 1/2, 9/10⟩
    castTime := 3/2 }

/-- Spell resolution performed by `SimpleMagicController.finishCasting`
(`src/systems/SimpleMagicController.ts`): a hold below 0.3 s gives the
quick tier, anything else the full charged tier; no interpolation. -/
def SimpleMagicController.finishSpell (castTime : ℚ) : SpellData :=
  if castTime < 3/10 then
    SimpleMagicController.spellsQuick
  else
    SimpleMagicController.spellsCharged

/-- Casting-session state of `MagicController` (`src/main.ts`): the
fields mutated by `startCasting` / `finishCasting`. -/
structure CastState where
  isCasting : Bool
  castStartTime : ℚ
  currentSpell : Option SpellData
  deriving DecidableEq

/-- Press handler `MagicController.startCasting` (`src/main.ts`): ignored
while already casting, otherwise records the press time and selects the
charged spell as the charge target. -/
def MagicController.startCasting (now : ℚ) (s : CastState) : CastState :=
  if s.isCasting then s
  else
    { s with
        isCasting := true
        castStartTime := now
        currentSpell := some MagicController.spellsCharged }

/-- Casting-session state of `SimpleMagicController`
(`src/systems/SimpleMagicController.ts`). -/
structure SimpleCastState where
  isCasting : Bool
  castStartTime : ℚ
  deriving DecidableEq

/-- Press handler `SimpleMagicController.startCasting`
(`src/systems/SimpleMagicController.ts`): ignored while already
casting. -/
def SimpleMagicController.startCasting (now : ℚ) (s : SimpleCastState) :
    SimpleCastState :=
  if s.isCasting then s
  else { isCasting := true, castStartTime := now }

/-- Mana fields of `PlayerController` (`src/main.ts`). -/
structure PlayerMana where
  currentMana : ℚ
  maxMana : ℚ
  deriving DecidableEq

/-- `PlayerController.spendMana` (`src/main.ts`): deducts only when
`currentMana >= amount`, returning whether the deduction happened. -/
def PlayerController.spendMana (amount : ℚ) (s : PlayerMana) :
    Bool × PlayerMana :=
  if s.currentMana ≥ amount then
    (true, { s with currentMana := s.currentMana - amount })
  else
    (false, s)

/-- `PlayerStats.spendMana` (`src/systems/CharacterAnimator.ts`): returns
false and leaves the mana value untouched when `mana < amount`. -/
def PlayerStats.spendMana (amount : ℚ) (mana : ℚ) : Bool × ℚ :=
  if mana < amount then (false, mana) else (true, mana - amount)

/-- Projectile record (`Projectile` interface in `src/main.ts` and
`src/systems/SimpleMagicController.ts`); the mesh and direction are
engine objects, the numeric fields are embedded. -/
structure Projectile where
  speed : ℚ
  damage : ℚ
  lifetime : ℚ
  maxLifetime : ℚ
  deriving DecidableEq

/-- `MagicController.createProjectile` (`src/main.ts`): pushes a fresh
projectile with `lifetime = 0` and `maxLifetime = 8` onto the active
list. -/
def MagicController.createProjectile (spell : SpellData)
    (ps : List Projectile) : List Projectile :=
  ps ++ [{ speed := spell.projectileSpeed
           damage := spell.damage
           lifetime := 0
           maxLifetime := 8 }]

/-- The portion of `MagicController` state touched by `castSpell`
(`src/main.ts`): the caster's mana pool, the spell counter and the
active-projectile list. -/
structure CastEnv where
  mana : PlayerMana
  spellsCast : ℕ
  activeProjectiles : List Projectile
  deriving DecidableEq

/-- `MagicController.castSpell` (`src/main.ts`): attempts to spend the
spell's mana cost; on failure it returns before spawning, on success it
creates the projectile and increments the counter. -/
def MagicController.castSpell (spell : SpellData) (s : CastEnv) : CastEnv :=
  match PlayerController.spendMana spell.manaCost s.mana with
  | (false, m) => { s with mana := m }
  | (true, m) =>
      { mana := m
        spellsCast := s.spellsCast + 1
        activeProjectiles :=
          MagicController.createProjectile spell s.activeProjectiles }

/-- One no-collision tick of a projectile inside
`SimpleMagicController.updateProjectiles`
(`src/systems/SimpleMagicController.ts`): the lifetime grows by the tick's
`deltaTime` and the projectile is removed (`none`) exactly when
`lifetime >= maxLifetime` afterwards. -/
def SimpleMagicController.projectileTick (maxLifetime dt life : ℚ) :
    Option ℚ :=
  let l := life + dt
  if maxLifetime ≤ l then none else some l

/-- Iterated no-collision projectile updates of
`SimpleMagicController.updateProjectiles` over a list of frame
`deltaTime`s; `none` means the projectile was removed at some tick. -/
def SimpleMagicController.projectileLoop (maxLifetime : ℚ) (life : ℚ) :
    List ℚ → Option ℚ
  | [] => some life
  | dt :: rest =>
      match SimpleMagicController.projectileTick maxLifetime dt life with
      | none => none
      | some l => SimpleMagicController.projectileLoop maxLifetime l rest

/-- One no-collision tick of a projectile inside `MagicController.update`
(`src/main.ts`): removal happens only when `lifetime > maxLifetime`
strictly. -/
def MagicController.projectileTick (maxLifetime dt life : ℚ) : Option ℚ :=
  let l := life + dt
  if maxLifetime < l then none else some l

/-- Iterated no-collision projectile updates of `MagicController.update`
(`src/main.ts`) over a list of frame `deltaTime`s. -/
def MagicController.projectileLoop (maxLifetime : ℚ) (life : ℚ) :
    List ℚ → Option ℚ
  | [] => some life
  | dt :: rest =>
      match MagicController.projectileTick maxLifetime dt life with
      | none => none
      | some l => MagicController.projectileLoop maxLifetime l rest

/-- Base mana regeneration rate of `PlayerStats`
(`src/systems/CharacterAnimator.ts`, `regenConfig.manaRegenRate`). -/
def PlayerStats.manaRegenRate : ℚ := 10

/-- State-dependent multiplier applied to the mana regen rate in
`PlayerStats.updateManaRegen` (`src/systems/CharacterAnimator.ts`):
resting 1.5, walking 1.0, running 0.7, airborne 0.5; `LANDING` has no
switch case, leaving the rate unchanged. -/
def PlayerStats.regenMultiplier : MovementState → ℚ
  | MovementState.IDLE => 3/2
  | MovementState.WALKING => 1
  | MovementState.RUNNING => 7/10
  | MovementState.JUMPING => 1/2
  | MovementState.FALLING => 1/2
  | MovementState.LANDING => 1

/-- `PlayerStats.updateManaRegen` (`src/systems/CharacterAnimator.ts`):
early-returns when mana is already at max, otherwise clamps
`mana + rate * deltaTime` at `maxMana`. -/
def PlayerStats.updateManaRegen (deltaTime : ℚ) (movementState : MovementState)
    (mana maxMana : ℚ) : ℚ :=
  if maxMana ≤ mana then mana
  else
    min maxMana
      (mana + PlayerStats.manaRegenRate *
        PlayerStats.regenMultiplier movementState * deltaTime)

/-- Iterated `PlayerStats.updateManaRegen` over a list of
`(deltaTime, movementState)` frames. -/
def PlayerStats.regenSteps (mana maxMana : ℚ)
    (steps : List (ℚ × MovementState)) : ℚ :=
  steps.foldl (fun m p => PlayerStats.updateManaRegen p.1 p.2 m maxMana) mana

/-- Base mana regeneration rate of `PlayerController` (`src/main.ts`,
`manaRegenRate`). -/
def PlayerController.manaRegenRate : ℚ := 10

/-- `PlayerController.regenerateMana` (`src/main.ts`): regeneration is
slowed (factor 0.7) only while `RUNNING`; every other state, airborne
included, uses the base rate; the result is clamped at `maxMana`. -/
def PlayerController.regenerateMana (deltaTime : ℚ) (state : MovementState)
    (s : PlayerMana) : PlayerMana :=
  if s.currentMana < s.maxMana then
    let regenRate :=
      if state = MovementState.RUNNING then
        PlayerController.manaRegenRate * (7/10)
      else
        PlayerController.manaRegenRate
    { s with currentMana := min s.maxMana (s.currentMana + regenRate * deltaTime) }
  else s

/-- Movement-state resolution inside `PlayerMovement.update`
(`src/unnamed/part_005`, first variant, lines 119–150), with the variant's
config constants `jumpThreshold = 0.5`, `runThreshold = 6.0`,
`walkThreshold = 0.5` inlined.  The sprint flag is not consulted. -/
def PlayerMovement.resolveState (isGrounded : Bool)
    (verticalVelocity horizontalSpeed : ℚ) : MovementState :=
  if !isGrounded then
    if verticalVelocity > 1/2 then MovementState.JUMPING
    else MovementState.FALLING
  else
    if horizontalSpeed > 6 then MovementState.RUNNING
    else if horizontalSpeed > 1/2 then MovementState.WALKING
    else MovementState.IDLE

/-- Movement-state resolution inside `PlayerMovement.updateState`
(`src/unnamed/part_005`, second variant, lines 1080–1108): the grounded
running case additionally requires the sprint key and horizontal speed
above `walkSpeed * 0.8 = 3.2` (with `walkSpeed = 4.0`). -/
def PlayerMovementV2.resolveState (isGrounded sprint : Bool)
    (verticalVelocity horizontalSpeed : ℚ) : MovementState :=
  if !isGrounded then
    if verticalVelocity > 1/2 then MovementState.JUMPING
    else MovementState.FALLING
  else if horizontalSpeed > 1/2 then
    if sprint = true ∧ horizontalSpeed > 4 * (4/5) then MovementState.RUNNING
    else MovementState.WALKING
  else
    MovementState.IDLE

/-- State resolution exactly as the specification words it
(priority-ordered clauses, sprint required for Running); used to compare
the source resolution functions against the spec's claim. -/
def specResolveState (isGrounded sprint : Bool)
    (verticalVelocity horizontalSpeed : ℚ)
    (jumpThr runThr walkThr : ℚ) : MovementState :=
  if isGrounded = false ∧ verticalVelocity > jumpThr then MovementState.JUMPING
  else if isGrounded = false then MovementState.FALLING
  else if horizontalSpeed > runThr ∧ sprint = true then MovementState.RUNNING
  else if horizontalSpeed > walkThr then MovementState.WALKING
  else MovementState.IDLE

/-- Three-component vector over exact rationals (engine `Vector3` as far
as the movement logic reads or writes it). -/
structure Vec3 where
  x : ℚ
  y : ℚ
  z : ℚ
  deriving DecidableEq

/-- The physics-body state read and written by `PlayerMovement.jump`:
grounded flag, linear velocity and current movement state. -/
structure MoveBody where
  isGrounded : Bool
  linearVelocity : Vec3
  currentState : MovementState
  deriving DecidableEq

/-- Jump impulse magnitude (`config.jumpForce = 8.0` in both
`PlayerMovement` variants of `src/unnamed/part_005`). -/
def PlayerMovement.jumpForce : ℚ := 8

/-- `PlayerMovement.jump` (`src/unnamed/part_005`, first variant, lines
246–263): early-returns when airborne; when grounded, applies the upward
impulse `(0, jumpForce, 0)` to the body (with `config.mass = 1.0` the
impulse adds directly to the linear velocity).  Nothing is queued and the
movement state is untouched. -/
def PlayerMovement.jump (s : MoveBody) : MoveBody :=
  if !s.isGrounded then s
  else
    { s with
        linearVelocity :=
          ⟨s.linearVelocity.x,
           s.linearVelocity.y + PlayerMovement.jumpForce,
           s.linearVelocity.z⟩ }

/-- `PlayerMovement.jump` (`src/unnamed/part_005`, second variant, lines
1024–1035): as the first variant but additionally clearing the grounded
flag after a successful jump. -/
def PlayerMovementV2.jump (s : MoveBody) : MoveBody :=
  if !s.isGrounded then s
  else
    { s with
        isGrounded := false
        linearVelocity :=
          ⟨s.linearVelocity.x,
           s.linearVelocity.y + PlayerMovement.jumpForce,
           s.linearVelocity.z⟩ }

/-- `InputManager.getMovementVector` (`src/unnamed/part_005`): builds the
raw WASD axis vector and divides by its Euclidean length when that length
is positive. -/
noncomputable def InputManager.getMovementVector
    (left right forward backward : Bool) : ℝ × ℝ :=
  let x : ℝ := (if left then (-1 : ℝ) else 0) + (if right then (1 : ℝ) else 0)
  let z : ℝ := (if forward then (1 : ℝ) else 0) + (if backward then (-1 : ℝ) else 0)
  let length := Real.sqrt (x * x + z * z)
  if length > 0 then (x / length, z / length) else (x, z)

/-- Camera configuration fields consulted by the zoom / height logic of
`ThirdPersonCamera` (`src/unnamed/part_003`). -/
structure CameraConfig where
  minDistance : ℚ
  maxDistance : ℚ
  minHeight : ℚ
  maxHeight : ℚ
  zoomSpeed : ℚ
  defaultDistance : ℚ
  defaultHeight : ℚ
  deriving DecidableEq

/-- Default `ThirdPersonCamera` configuration (`src/unnamed/part_003`). -/
def ThirdPersonCamera.defaultConfig : CameraConfig :=
  { minDistance := 3
    maxDistance := 15
    minHeight := 1
    maxHeight := 8
    zoomSpeed := 2
    defaultDistance := 8
    defaultHeight := 4 }

/-- The `ThirdPersonCamera` state touched by the zoom and config
operations: current config and the target distance / height. -/
structure CameraState where
  config : CameraConfig
  targetCameraDistance : ℚ
  targetCameraHeight : ℚ
  deriving DecidableEq

/-- Initial `ThirdPersonCamera` state with the default configuration
(`src/unnamed/part_003` constructor with no config override). -/
def ThirdPersonCamera.init : CameraState :=
  { config := ThirdPersonCamera.defaultConfig
    targetCameraDistance := 8
    targetCameraHeight := 4 }

/-- Scroll-wheel zoom handler installed by
`ThirdPersonCamera.setupInputHandlers` (`src/unnamed/part_003`, lines
105–115): moves the target distance by `±zoomSpeed` and clamps it into
`[minDistance, maxDistance]`. -/
def ThirdPersonCamera.onScrollChange (delta : ℚ) (s : CameraState) :
    CameraState :=
  let zoomDelta : ℚ := if delta > 0 then 1 else -1
  { s with
      targetCameraDistance :=
        max s.config.minDistance
          (min s.config.maxDistance
            (s.targetCameraDistance + zoomDelta * s.config.zoomSpeed)) }

/-- `ThirdPersonCamera.setZoom` (`src/unnamed/part_003`): stores the
requested distance clamped into `[minDistance, maxDistance]`. -/
def ThirdPersonCamera.setZoom (distance : ℚ) (s : CameraState) : CameraState :=
  { s with
      targetCameraDistance :=
        max s.config.minDistance (min s.config.maxDistance distance) }

/-- `ThirdPersonCamera.setHeight` (`src/unnamed/part_003`): stores the
requested height clamped into `[minHeight, maxHeight]`. -/
def ThirdPersonCamera.setHeight (height : ℚ) (s : CameraState) : CameraState :=
  { s with
      targetCameraHeight :=
        max s.config.minHeight (min s.config.maxHeight height) }

/-- A partial camera configuration (`Partial<CameraConfig>` argument of
`ThirdPersonCamera.updateConfig`). -/
structure CameraConfigPatch where
  minDistance : Option ℚ
  maxDistance : Option ℚ
  minHeight : Option ℚ
  maxHeight : Option ℚ
  zoomSpeed : Option ℚ
  defaultDistance : Option ℚ
  defaultHeight : Option ℚ
  deriving DecidableEq

/-- The TypeScript spread `{ ...this.config, ...newConfig }`: fields
present in the patch replace the current values. -/
def CameraConfig.merge (c : CameraConfig) (p : CameraConfigPatch) :
    CameraConfig :=
  { minDistance := p.minDistance.getD c.minDistance
    maxDistance := p.maxDistance.getD c.maxDistance
    minHeight := p.minHeight.getD c.minHeight
    maxHeight := p.maxHeight.getD c.maxHeight
    zoomSpeed := p.zoomSpeed.getD c.zoomSpeed
    defaultDistance := p.defaultDistance.getD c.defaultDistance
    defaultHeight := p.defaultHeight.getD c.defaultHeight }

/-- `ThirdPersonCamera.updateConfig` (`src/unnamed/part_003`, lines
317–340): merges the partial config, then re-clamps the current target
distance and height into the (possibly new) limits. -/
def ThirdPersonCamera.updateConfig (p : CameraConfigPatch) (s : CameraState) :
    CameraState :=
  let cfg := CameraConfig.merge s.config p
  { config := cfg
    targetCameraDistance :=
      max cfg.minDistance (min cfg.maxDistance s.targetCameraDistance)
    targetCameraHeight :=
      max cfg.minHeight (min cfg.maxHeight s.targetCameraHeight) }

/-- The camera operations that touch the zoom state. -/
inductive CameraOp where
  | scroll (delta : ℚ)
  | setZoom (distance : ℚ)
  | setHeight (height : ℚ)
  | updateConfig (p : CameraConfigPatch)
  deriving DecidableEq

/-- Dispatch one camera operation. -/
def applyCameraOp (s : CameraState) (op : CameraOp) : CameraState :=
  match op with
  | CameraOp.scroll delta => ThirdPersonCamera.onScrollChange delta s
  | CameraOp.setZoom d => ThirdPersonCamera.setZoom d s
  | CameraOp.setHeight h => ThirdPersonCamera.setHeight h s
  | CameraOp.updateConfig p => ThirdPersonCamera.updateConfig p s

/-- Apply a sequence of camera operations in order. -/
def applyCameraOps (s : CameraState) (ops : List CameraOp) : CameraState :=
  ops.foldl applyCameraOp s

/-- A camera state has a sane zoom range when the configured minimum does
not exceed the configured maximum. -/
def cfgValid (s : CameraState) : Prop :=
  s.config.minDistance ≤ s.config.maxDistance

/-- The target zoom distance lies within the configured bounds. -/
def zoomInBounds (s : CameraState) : Prop :=
  s.config.minDistance ≤ s.targetCameraDistance ∧
    s.targetCameraDistance ≤ s.config.maxDistance

instance (s : CameraState) : Decidable (cfgValid s) := by
  unfold cfgValid; infer_instance

instance (s : CameraState) : Decidable (zoomInBounds s) := by
  unfold zoomInBounds; infer_instance

/-- C7: starting a cast while a cast is already charging is a no-op, in
both magic controllers: two consecutive start-cast calls with no release
between them leave exactly the state produced by the first call, so the
recorded `startTime` (and everything else) is unchanged by the second
call. -/
theorem C7_startCasting_idempotent :
    (∀ (t1 t2 : ℚ) (s : CastState),
        MagicController.startCasting t2 (MagicController.startCasting t1 s) =
          MagicController.startCasting t1 s) ∧
    (∀ (t1 t2 : ℚ) (s : SimpleCastState),
        SimpleMagicController.startCasting t2
            (SimpleMagicController.startCasting t1 s) =
          SimpleMagicController.startCasting t1 s) := by
  constructor
  · intro t1 t2 s
    unfold MagicController.startCasting
    by_cases h : s.isCasting = true <;> simp [h]
  · intro t1 t2 s
    unfold SimpleMagicController.startCasting
    by_cases h : s.isCasting = true <;> simp [h]

/-- C2: spending more mana than is available fails atomically in both
mana pools (`PlayerStats.spendMana` and `PlayerController.spendMana`),
and `MagicController.castSpell` then leaves its whole state unchanged:
no projectile is spawned and the spell counter stays put.  In particular
with 4 mana and a cost of 10, `spend` returns false and mana stays 4. -/
theorem C2_insufficient_mana_aborts :
    (∀ (amount mana : ℚ), mana < amount →
        PlayerStats.spendMana amount mana = (false, mana)) ∧
    (∀ (spell : SpellData) (s : CastEnv),
        s.mana.currentMana < spell.manaCost →
        PlayerController.spendMana spell.manaCost s.mana = (false, s.mana) ∧
          MagicController.castSpell spell s = s) ∧
    PlayerStats.spendMana 10 4 = (false, 4) := by
  refine ⟨?_, ?_, by decide⟩
  · intro amount mana h
    unfold PlayerStats.spendMana
    rw [if_pos h]
  · intro spell s h
    have hs : PlayerController.spendMana spell.manaCost s.mana = (false, s.mana) := by
      unfold PlayerController.spendMana
      rw [if_neg (not_le.mpr h)]
    refine ⟨hs, ?_⟩
    unfold MagicController.castSpell
    rw [hs]

/-- Witness for C2 at the claim's concrete instance: current mana 4,
resolved cost 10. -/
theorem C2_witness :
    PlayerController.spendMana 10 ⟨4, 100⟩ = (false, ⟨4, 100⟩) ∧
      MagicController.castSpell { MagicController.spellsCharged with manaCost := 10 }
          { mana := ⟨4, 100⟩, spellsCast := 0, activeProjectiles := [] } =
        { mana := ⟨4, 100⟩, spellsCast := 0, activeProjectiles := [] } :=
  C2_insufficient_mana_aborts.2.1
    { MagicController.spellsCharged with manaCost := 10 }
    { mana := ⟨4, 100⟩, spellsCast := 0, activeProjectiles := [] }
    (by decide)

/-- C1 counterexample: in `MagicController.finishCasting` the full-charge
duration is the charged tier's `castTime` of 2.0 s, not 1.5 s, so a
release held for exactly 1.5 s does not resolve to the charged tier as
the claim states: it resolves to an interpolated spell with
`manaCost = ⌈5 + (20 − 5)·(1.5/2)⌉ = 17`, not 20. -/
theorem C1_counterexample :
    MagicController.finishSpell (3/2) ≠ MagicController.spellsCharged ∧
      (MagicController.finishSpell (3/2)).manaCost = 17 ∧
      MagicController.spellsCharged.manaCost = 20 := by
  have hmc : (MagicController.finishSpell (3/2)).manaCost = 17 := by
    norm_num [MagicController.finishSpell, MagicController.spellsQuick,
      MagicController.spellsCharged]
    rw [show ⌈(65/4 : ℚ)⌉ = (17 : ℤ) from Int.ceil_eq_iff.mpr (by norm_num)]
    norm_num
  refine ⟨?_, hmc, by norm_num [MagicController.spellsCharged]⟩
  intro he
  rw [he] at hmc
  norm_num [MagicController.spellsCharged] at hmc

/-- C1 (amended): charge release resolution as the source implements it.
For `MagicController.finishCasting` (`src/main.ts`) with quick threshold
0.2 s and full-charge duration `spellsCharged.castTime = 2.0` s: below
0.2 s the quick tier exactly; at or above 2.0 s the charged tier exactly;
otherwise `manaCost` and `damage` are the ceiling of the linear
interpolation and `projectileSize` is the unrounded interpolation.
`SimpleMagicController.finishCasting` instead resolves any hold below
0.3 s to the quick tier and everything else to the full charged tier,
with no interpolation.  Concretely, a 0.1 s release yields the quick tier
and a 0.75 s release yields `manaCost = ⌈5 + (20 − 5)·(0.75/2)⌉ = 11`. -/
theorem C1_charge_resolution :
    (∀ h : ℚ,
        (h < 1/5 → MagicController.finishSpell h = MagicController.spellsQuick) ∧
        (2 ≤ h → MagicController.finishSpell h = MagicController.spellsCharged) ∧
        (1/5 ≤ h → h < 2 →
          (MagicController.finishSpell h).manaCost =
              ((⌈MagicController.spellsQuick.manaCost +
                  (MagicController.spellsCharged.manaCost -
                    MagicController.spellsQuick.manaCost) *
                    (h / MagicController.spellsCharged.castTime)⌉ : ℤ) : ℚ) ∧
            (MagicController.finishSpell h).damage =
              ((⌈MagicController.spellsQuick.damage +
                  (MagicController.spellsCharged.damage -
                    MagicController.spellsQuick.damage) *
                    (h / MagicController.spellsCharged.castTime)⌉ : ℤ) : ℚ) ∧
            (MagicController.finishSpell h).projectileSize =
              MagicController.spellsQuick.projectileSize +
                (MagicController.spellsCharged.projectileSize -
                  MagicController.spellsQuick.projectileSize) *
                  (h / MagicController.spellsCharged.castTime))) ∧
    (∀ h : ℚ,
        (h < 3/10 → SimpleMagicController.finishSpell h =
          SimpleMagicController.spellsQuick) ∧
        (3/10 ≤ h → SimpleMagicController.finishSpell h =
          SimpleMagicController.spellsCharged)) ∧
    MagicController.finishSpell (1/10) = MagicController.spellsQuick ∧
    (MagicController.finishSpell (3/4)).manaCost = 11 := by
  refine ⟨?_, ?_, by norm_num [MagicController.finishSpell], by
    norm_num [MagicController.finishSpell, MagicController.spellsQuick,
      MagicController.spellsCharged]
    rw [show ⌈(85/8 : ℚ)⌉ = (11 : ℤ) from Int.ceil_eq_iff.mpr (by norm_num)]
    norm_num⟩
  · intro h
    have hct : MagicController.spellsCharged.castTime = 2 := rfl
    refine ⟨?_, ?_, ?_⟩
    · intro hlt
      unfold MagicController.finishSpell
      rw [if_pos hlt]
    · intro hge
      unfold MagicController.finishSpell
      rw [if_neg (by rw [not_lt]; linarith), if_pos (by rw [hct]; exact hge)]
    · intro h1 h2
      unfold MagicController.finishSpell
      rw [if_neg (by rw [not_lt]; exact h1), if_neg (by rw [not_le, hct]; exact h2)]
      exact ⟨rfl, rfl, rfl⟩
  · intro h
    constructor
    · intro hlt
      unfold SimpleMagicController.finishSpell
      rw [if_pos hlt]
    · intro hge
      unfold SimpleMagicController.finishSpell
      rw [if_neg (not_lt.mpr hge)]

/-- Witness for C1 at a 1 s hold: the interpolated mana cost is
`⌈5 + 15 · (1/2)⌉ = 13`. -/
theorem C1_witness :
    (MagicController.finishSpell 1).manaCost =
      ((⌈MagicController.spellsQuick.manaCost +
          (MagicController.spellsCharged.manaCost -
            MagicController.spellsQuick.manaCost) *
            ((1 : ℚ) / MagicController.spellsCharged.castTime)⌉ : ℤ) : ℚ) ∧
      (MagicController.finishSpell 1).manaCost = 13 := by
  have h := ((C1_charge_resolution.1 1).2.2 (by norm_num) (by norm_num)).1
  refine ⟨h, ?_⟩
  rw [h]
  norm_num [MagicController.spellsQuick, MagicController.spellsCharged]
  rw [show ⌈(25/2 : ℚ)⌉ = (13 : ℤ) from Int.ceil_eq_iff.mpr (by norm_num)]
  norm_num

/-- C6: for a release strictly between the quick threshold (0.2 s) and
the full-charge duration (2.0 s), the interpolated spell of
`MagicController.finishCasting` inherits projectile speed, color and cast
time unchanged from the charged tier (the record spread copies them; only
`manaCost`, `projectileSize` and `damage` are recomputed). -/
theorem C6_interpolated_inherits_charged :
    ∀ h : ℚ, 1/5 < h → h < 2 →
      (MagicController.finishSpell h).projectileSpeed =
          MagicController.spellsCharged.projectileSpeed ∧
        (MagicController.finishSpell h).color = MagicController.spellsCharged.color ∧
        (MagicController.finishSpell h).castTime =
          MagicController.spellsCharged.castTime := by
  intro h h1 h2
  unfold MagicController.finishSpell
  rw [if_neg (by rw [not_lt]; linarith),
    if_neg (by rw [not_le]; exact (by exact h2 : h < MagicController.spellsCharged.castTime))]
  exact ⟨rfl, rfl, rfl⟩

/-- Witness for C6 at a 1 s hold. -/
theorem C6_witness :
    (MagicController.finishSpell 1).projectileSpeed =
        MagicController.spellsCharged.projectileSpeed ∧
      (MagicController.finishSpell 1).color = MagicController.spellsCharged.color ∧
      (MagicController.finishSpell 1).castTime =
        MagicController.spellsCharged.castTime :=
  C6_interpolated_inherits_charged 1 (by norm_num) (by norm_num)

/-- Helper: one `PlayerStats.updateManaRegen` step never pushes mana
above the maximum when it starts at or below it. -/
theorem PlayerStats.updateManaRegen_le (dt : ℚ) (ms : MovementState)
    (mana maxMana : ℚ) (h : mana ≤ maxMana) :
    PlayerStats.updateManaRegen dt ms mana maxMana ≤ maxMana := by
  unfold PlayerStats.updateManaRegen
  by_cases hm : maxMana ≤ mana
  · rw [if_pos hm]; exact h
  · rw [if_neg hm]; exact min_le_left _ _

/-- C3 counterexample: in `PlayerController.regenerateMana`
(`src/main.ts`) the rate is not scaled down further while airborne — an
airborne (Jumping) frame regenerates at the full base rate 10, which is
not less than the Running rate 7, contradicting the claimed
Running-then-airborne rate ordering. -/
theorem C3_counterexample :
    (PlayerController.regenerateMana 1 MovementState.JUMPING ⟨0, 100⟩).currentMana = 10 ∧
      (PlayerController.regenerateMana 1 MovementState.RUNNING ⟨0, 100⟩).currentMana = 7 ∧
      ¬ (PlayerController.regenerateMana 1 MovementState.JUMPING ⟨0, 100⟩).currentMana <
          (PlayerController.regenerateMana 1 MovementState.RUNNING ⟨0, 100⟩).currentMana := by
  have hne : MovementState.JUMPING ≠ MovementState.RUNNING := by decide
  have h1 : (PlayerController.regenerateMana 1 MovementState.JUMPING ⟨0, 100⟩).currentMana = 10 := by
    simp [PlayerController.regenerateMana, PlayerController.manaRegenRate]
    norm_num
  have h2 : (PlayerController.regenerateMana 1 MovementState.RUNNING ⟨0, 100⟩).currentMana = 7 := by
    simp [PlayerController.regenerateMana, PlayerController.manaRegenRate]
    norm_num [min_def]
  refine ⟨h1, h2, ?_⟩
  rw [h1, h2]
  norm_num

/-- C3 (amended): `PlayerStats.updateManaRegen`
(`src/systems/CharacterAnimator.ts`) sets
`current := min(max, current + rate(state) · deltaTime)` for every
`deltaTime ≥ 0` and starting value `current ≤ max`, where the rate is the
base rate times a state multiplier that is scaled down while Running
(0.7) and scaled down further while airborne (0.5, for both Jumping and
Falling); iterating regeneration never pushes `current` above `max`.
`PlayerController.regenerateMana` (`src/main.ts`) satisfies the same
min-clamp formula but scales the rate down only while Running (0.7),
applying the unreduced base rate while airborne. -/
theorem C3_mana_regen :
    (∀ (dt : ℚ) (ms : MovementState) (mana maxMana : ℚ),
        0 ≤ dt → mana ≤ maxMana →
        PlayerStats.updateManaRegen dt ms mana maxMana =
          min maxMana
            (mana + PlayerStats.manaRegenRate * PlayerStats.regenMultiplier ms * dt)) ∧
    (PlayerStats.manaRegenRate * PlayerStats.regenMultiplier MovementState.RUNNING <
        PlayerStats.manaRegenRate ∧
      PlayerStats.manaRegenRate * PlayerStats.regenMultiplier MovementState.JUMPING <
        PlayerStats.manaRegenRate * PlayerStats.regenMultiplier MovementState.RUNNING ∧
      PlayerStats.regenMultiplier MovementState.FALLING =
        PlayerStats.regenMultiplier MovementState.JUMPING) ∧
    (∀ (mana maxMana : ℚ) (steps : List (ℚ × MovementState)),
        mana ≤ maxMana → PlayerStats.regenSteps mana maxMana steps ≤ maxMana) ∧
    (∀ (dt : ℚ) (ms : MovementState) (s : PlayerMana),
        0 ≤ dt → s.currentMana ≤ s.maxMana →
        (PlayerController.regenerateMana dt ms s).currentMana =
          min s.maxMana
            (s.currentMana +
              (if ms = MovementState.RUNNING then
                  PlayerController.manaRegenRate * (7/10)
                else PlayerController.manaRegenRate) * dt)) := by
  have hmulnn : ∀ ms : MovementState, 0 ≤ PlayerStats.regenMultiplier ms := by
    intro ms
    cases ms <;> norm_num [PlayerStats.regenMultiplier]
  refine ⟨?_, ?_, ?_, ?_⟩
  · intro dt ms mana maxMana hdt hle
    unfold PlayerStats.updateManaRegen
    by_cases hm : maxMana ≤ mana
    · rw [if_pos hm]
      have heq : mana = maxMana := le_antisymm hle hm
      have hra : (0:ℚ) ≤ PlayerStats.manaRegenRate * PlayerStats.regenMultiplier ms * dt :=
        mul_nonneg
          (mul_nonneg (by norm_num [PlayerStats.manaRegenRate]) (hmulnn ms)) hdt
      rw [heq, min_eq_left (by linarith)]
    · rw [if_neg hm]
  · refine ⟨?_, ?_, rfl⟩ <;>
      norm_num [PlayerStats.manaRegenRate, PlayerStats.regenMultiplier]
  · intro mana maxMana steps
    induction steps generalizing mana with
    | nil => intro h; exact h
    | cons p rest ih =>
        intro h
        exact ih _ (PlayerStats.updateManaRegen_le p.1 p.2 mana maxMana h)
  · intro dt ms s hdt hle
    unfold PlayerController.regenerateMana
    by_cases hm : s.currentMana < s.maxMana
    · rw [if_pos hm]
    · rw [if_neg hm]
      have heq : s.currentMana = s.maxMana := le_antisymm hle (not_lt.mp hm)
      have hrate : (0:ℚ) ≤
          (if ms = MovementState.RUNNING then
              PlayerController.manaRegenRate * (7/10)
            else PlayerController.manaRegenRate) * dt := by
        refine mul_nonneg ?_ hdt
        by_cases hr : ms = MovementState.RUNNING
        · rw [if_pos hr]; norm_num [PlayerController.manaRegenRate]
        · rw [if_neg hr]; norm_num [PlayerController.manaRegenRate]
      rw [heq]
      exact (min_eq_left (by linarith)).symm

/-- Witness for C3: one idle frame of one second regenerates from 50
toward the cap 100 following the min-clamp formula. -/
theorem C3_witness :
    PlayerStats.updateManaRegen 1 MovementState.IDLE 50 100 =
      min 100
        (50 + PlayerStats.manaRegenRate *
          PlayerStats.regenMultiplier MovementState.IDLE * 1) :=
  C3_mana_regen.1 1 MovementState.IDLE 50 100 (by norm_num) (by norm_num)

/-- Helper: the simple controller's projectile survives to `none` exactly
when some nonempty prefix of the frame times accumulates a lifetime at or
above `maxLifetime` (removal condition `lifetime >= maxLifetime`). -/
theorem simpleProjectileLoop_none_iff (M : ℚ) :
    ∀ (dts : List ℚ) (life : ℚ),
      SimpleMagicController.projectileLoop M life dts = none ↔
        ∃ n, 0 < n ∧ n ≤ dts.length ∧ M ≤ life + (dts.take n).sum := by
  intro dts
  induction dts with
  | nil =>
      intro life
      constructor
      · intro h
        simp [SimpleMagicController.projectileLoop] at h
      · rintro ⟨n, hn, hlen, _⟩
        simp at hlen
        omega
  | cons dt rest ih =>
      intro life
      by_cases hM : M ≤ life + dt
      · have hnone : SimpleMagicController.projectileLoop M life (dt :: rest) = none := by
          simp [SimpleMagicController.projectileLoop,
            SimpleMagicController.projectileTick, hM]
        rw [hnone]
        constructor
        · intro _
          exact ⟨1, Nat.one_pos, by simp, by simpa using hM⟩
        · intro _
          rfl
      · have hstep : SimpleMagicController.projectileLoop M life (dt :: rest) =
            SimpleMagicController.projectileLoop M (life + dt) rest := by
          simp [SimpleMagicController.projectileLoop,
            SimpleMagicController.projectileTick, hM]
        rw [hstep, ih (life + dt)]
        constructor
        · rintro ⟨n, hn, hlen, hsum⟩
          refine ⟨n + 1, Nat.succ_pos n, by simpa using Nat.succ_le_succ hlen, ?_⟩
          rw [List.take_succ_cons, List.sum_cons]
          linarith
        · rintro ⟨n, hn, hlen, hsum⟩
          obtain ⟨m, rfl⟩ : ∃ m, n = m + 1 := ⟨n - 1, by omega⟩
          rw [List.take_succ_cons, List.sum_cons] at hsum
          rcases Nat.eq_zero_or_pos m with h0 | hpos
          · subst h0
            simp at hsum
            exact absurd hsum hM
          · refine ⟨m, hpos, by simpa using hlen, by linarith⟩

/-- Helper: the simple controller's surviving projectile carries the
accumulated lifetime. -/
theorem simpleProjectileLoop_cases (M : ℚ) :
    ∀ (dts : List ℚ) (life : ℚ),
      SimpleMagicController.projectileLoop M life dts = none ∨
        SimpleMagicController.projectileLoop M life dts = some (life + dts.sum) := by
  intro dts
  induction dts with
  | nil =>
      intro life
      right
      simp [SimpleMagicController.projectileLoop]
  | cons dt rest ih =>
      intro life
      by_cases hM : M ≤ life + dt
      · left
        simp [SimpleMagicController.projectileLoop,
          SimpleMagicController.projectileTick, hM]
      · have hstep : SimpleMagicController.projectileLoop M life (dt :: rest) =
            SimpleMagicController.projectileLoop M (life + dt) rest := by
          simp [SimpleMagicController.projectileLoop,
            SimpleMagicController.projectileTick, hM]
        rw [hstep]
        rcases ih (life + dt) with h | h
        · left; exact h
        · right
          rw [h, List.sum_cons]
          congr 1
          ring

/-- Helper: the main controller's projectile is removed exactly when some
nonempty prefix of the frame times accumulates a lifetime strictly above
`maxLifetime` (removal condition `lifetime > maxLifetime`). -/
theorem mainProjectileLoop_none_iff (M : ℚ) :
    ∀ (dts : List ℚ) (life : ℚ),
      MagicController.projectileLoop M life dts = none ↔
        ∃ n, 0 < n ∧ n ≤ dts.length ∧ M < life + (dts.take n).sum := by
  intro dts
  induction dts with
  | nil =>
      intro life
      constructor
      · intro h
        simp [MagicController.projectileLoop] at h
      · rintro ⟨n, hn, hlen, _⟩
        simp at hlen
        omega
  | cons dt rest ih =>
      intro life
      by_cases hM : M < life + dt
      · have hnone : MagicController.projectileLoop M life (dt :: rest) = none := by
          simp [MagicController.projectileLoop, MagicController.projectileTick, hM]
        rw [hnone]
        constructor
        · intro _
          exact ⟨1, Nat.one_pos, by simp, by simpa using hM⟩
        · intro _
          rfl
      · have hstep : MagicController.projectileLoop M life (dt :: rest) =
            MagicController.projectileLoop M (life + dt) rest := by
          simp [MagicController.projectileLoop, MagicController.projectileTick, hM]
        rw [hstep, ih (life + dt)]
        constructor
        · rintro ⟨n, hn, hlen, hsum⟩
          refine ⟨n + 1, Nat.succ_pos n, by simpa using Nat.succ_le_succ hlen, ?_⟩
          rw [List.take_succ_cons, List.sum_cons]
          linarith
        · rintro ⟨n, hn, hlen, hsum⟩
          obtain ⟨m, rfl⟩ : ∃ m, n = m + 1 := ⟨n - 1, by omega⟩
          rw [List.take_succ_cons, List.sum_cons] at hsum
          rcases Nat.eq_zero_or_pos m with h0 | hpos
          · subst h0
            simp at hsum
            exact absurd hsum hM
          · refine ⟨m, hpos, by simpa using hlen, by linarith⟩

/-- Helper: the main controller's surviving projectile carries the
accumulated lifetime. -/
theorem mainProjectileLoop_cases (M : ℚ) :
    ∀ (dts : List ℚ) (life : ℚ),
      MagicController.projectileLoop M life dts = none ∨
        MagicController.projectileLoop M life dts = some (life + dts.sum) := by
  intro dts
  induction dts with
  | nil =>
      intro life
      right
      simp [MagicController.projectileLoop]
  | cons dt rest ih =>
      intro life
      by_cases hM : M < life + dt
      · left
        simp [MagicController.projectileLoop, MagicController.projectileTick, hM]
      · have hstep : MagicController.projectileLoop M life (dt :: rest) =
            MagicController.projectileLoop M (life + dt) rest := by
          simp [MagicController.projectileLoop, MagicController.projectileTick, hM]
        rw [hstep]
        rcases ih (life + dt) with h | h
        · left; exact h
        · right
          rw [h, List.sum_cons]
          congr 1
          ring

/-- C4 counterexample: in `MagicController.update` (`src/main.ts`) the
expiry test is `lifetime > maxLifetime`, strict.  With `maxLifetime = 8`
and two 4-second frames, the accumulated lifetime reaches exactly 8 at
the second tick — at or above `maxLifetime`, so the claim says the
projectile is removed there — yet the code keeps it alive
(`some 8`, not removed). -/
theorem C4_counterexample :
    MagicController.projectileLoop 8 0 [4, 4] = some 8 ∧
      (8 : ℚ) ≤ (([4, 4] : List ℚ).take 2).sum := by
  constructor
  · norm_num [MagicController.projectileLoop, MagicController.projectileTick]
  · norm_num

/-- C4 (amended): a projectile that never registers a collision is
removed by `SimpleMagicController.updateProjectiles` at the first tick at
which its accumulated lifetime reaches or exceeds its `maxLifetime`
(spawned as 5) and at no earlier tick, while `MagicController.update`
(`src/main.ts`, spawned `maxLifetime = 8`) removes it only at the first
tick at which the accumulated lifetime strictly exceeds `maxLifetime`; a
projectile whose lifetime lands exactly on `maxLifetime` survives that
tick there. -/
theorem C4_projectile_expiry :
    (∀ dts : List ℚ,
        (SimpleMagicController.projectileLoop 5 0 dts = none ↔
          ∃ n, 0 < n ∧ n ≤ dts.length ∧ 5 ≤ (dts.take n).sum) ∧
        (SimpleMagicController.projectileLoop 5 0 dts = some dts.sum ↔
          ∀ n, 0 < n → n ≤ dts.length → (dts.take n).sum < 5)) ∧
    (∀ dts : List ℚ,
        (MagicController.projectileLoop 8 0 dts = none ↔
          ∃ n, 0 < n ∧ n ≤ dts.length ∧ 8 < (dts.take n).sum) ∧
        (MagicController.projectileLoop 8 0 dts = some dts.sum ↔
          ∀ n, 0 < n → n ≤ dts.length → (dts.take n).sum ≤ 8)) := by
  constructor
  · intro dts
    have hnone := simpleProjectileLoop_none_iff 5 dts 0
    simp only [zero_add] at hnone
    constructor
    · exact hnone
    · constructor
      · intro hsome n hn hlen
        by_contra hge
        push_neg at hge
        have : SimpleMagicController.projectileLoop 5 0 dts = none :=
          hnone.mpr ⟨n, hn, hlen, hge⟩
        rw [this] at hsome
        cases hsome
      · intro hall
        rcases simpleProjectileLoop_cases 5 dts 0 with h | h
        · exfalso
          rcases hnone.mp h with ⟨n, hn, hlen, hge⟩
          exact absurd hge (not_le.mpr (hall n hn hlen))
        · simpa using h
  · intro dts
    have hnone := mainProjectileLoop_none_iff 8 dts 0
    simp only [zero_add] at hnone
    constructor
    · exact hnone
    · constructor
      · intro hsome n hn hlen
        by_contra hge
        push_neg at hge
        have : MagicController.projectileLoop 8 0 dts = none :=
          hnone.mpr ⟨n, hn, hlen, hge⟩
        rw [this] at hsome
        cases hsome
      · intro hall
        rcases mainProjectileLoop_cases 8 dts 0 with h | h
        · exfalso
          rcases hnone.mp h with ⟨n, hn, hlen, hge⟩
          exact absurd hge (not_lt.mpr (hall n hn hlen))
        · simpa using h

/-- Witness for C4: two 3-second frames remove a `maxLifetime = 5`
projectile in the simple controller (6 ≥ 5 at the second tick), while
frames of 5 and 2 seconds keep a `maxLifetime = 8` projectile of the main
controller alive with lifetime 7. -/
theorem C4_witness :
    SimpleMagicController.projectileLoop 5 0 [3, 3] = none ∧
      MagicController.projectileLoop 8 0 [5, 2] = some (([5, 2] : List ℚ).sum) := by
  constructor
  · exact (C4_projectile_expiry.1 [3, 3]).1.mpr
      ⟨2, by norm_num, by norm_num, by norm_num⟩
  · refine (C4_projectile_expiry.2 [5, 2]).2.mpr ?_
    intro n hn hlen
    simp only [List.length_cons, List.length_nil] at hlen
    interval_cases n <;> norm_num

/-- C5 counterexample: the `PlayerMovement.update` state resolution
(`src/unnamed/part_005`, lines 119–150) does not consult the sprint key:
when grounded at horizontal speed 7 (above the run threshold 6) with
sprint NOT held, the code resolves Running, whereas the claimed priority
order (Running requires sprint, then Walking) resolves Walking. -/
theorem C5_counterexample :
    PlayerMovement.resolveState true 0 7 = MovementState.RUNNING ∧
      specResolveState true false 0 7 (1/2) 6 (1/2) = MovementState.WALKING ∧
      PlayerMovement.resolveState true 0 7 ≠
        specResolveState true false 0 7 (1/2) 6 (1/2) := by
  have h1 : PlayerMovement.resolveState true 0 7 = MovementState.RUNNING := by
    norm_num [PlayerMovement.resolveState]
  have h2 : specResolveState true false 0 7 (1/2) 6 (1/2) = MovementState.WALKING := by
    norm_num [specResolveState]
  refine ⟨h1, h2, ?_⟩
  rw [h1, h2]
  decide

/-- C5 (amended): both state resolutions are priority-ordered and yield
exactly one state per tick, with airborne states as claimed, but the
sprint condition differs from the claim.  `PlayerMovement.update`
resolves exactly like the claimed order with the sprint requirement
dropped (equivalently, sprint always treated as held), with thresholds
jump 0.5, run 6, walk 0.5.  The second variant's
`PlayerMovement.updateState` does implement the claimed sprint-gated
order, with run threshold `0.8 × walkSpeed = 3.2`. -/
theorem C5_state_resolution :
    (∀ (g : Bool) (vy h : ℚ),
        PlayerMovement.resolveState g vy h =
          specResolveState g true vy h (1/2) 6 (1/2)) ∧
    (∀ (g s : Bool) (vy h : ℚ),
        PlayerMovementV2.resolveState g s vy h =
          specResolveState g s vy h (1/2) (16/5) (1/2)) := by
  have hmul : (4 : ℚ) * (4/5) = 16/5 := by norm_num
  constructor
  · intro g vy h
    cases g
    · by_cases hv : vy > 1/2 <;>
        simp [PlayerMovement.resolveState, specResolveState, hv]
    · by_cases h6 : h > 6 <;> by_cases h12 : h > 1/2 <;>
        simp [PlayerMovement.resolveState, specResolveState, h6, h12]
  · intro g s vy h
    cases g
    · by_cases hv : vy > 1/2 <;>
        simp [PlayerMovementV2.resolveState, specResolveState, hv]
    · cases s
      · by_cases h12 : h > 1/2 <;>
          simp [PlayerMovementV2.resolveState, specResolveState, h12]
      · by_cases h32 : h > 16/5
        · have h12 : h > 1/2 := by linarith
          simp [PlayerMovementV2.resolveState, specResolveState, hmul, h32, h12]
          linarith
        · by_cases h12 : h > 1/2 <;>
            simp [PlayerMovementV2.resolveState, specResolveState, hmul, h32, h12]

/-- C8: a jump request while airborne is silently dropped by both
`PlayerMovement.jump` variants (`src/unnamed/part_005`): no impulse, no
velocity change, no state change, nothing queued — the state is returned
bit-for-bit; only when grounded is the fixed upward impulse of magnitude
`jumpForce = 8` applied to the body's velocity. -/
theorem C8_airborne_jump_dropped :
    (∀ s : MoveBody, s.isGrounded = false → PlayerMovement.jump s = s) ∧
    (∀ s : MoveBody, s.isGrounded = false → PlayerMovementV2.jump s = s) ∧
    (∀ s : MoveBody, s.isGrounded = true →
        PlayerMovement.jump s =
          { s with linearVelocity :=
              ⟨s.linearVelocity.x,
               s.linearVelocity.y + PlayerMovement.jumpForce,
               s.linearVelocity.z⟩ }) ∧
    (∀ s : MoveBody, s.isGrounded = true →
        PlayerMovementV2.jump s =
          { s with
              isGrounded := false
              linearVelocity :=
                ⟨s.linearVelocity.x,
                 s.linearVelocity.y + PlayerMovement.jumpForce,
                 s.linearVelocity.z⟩ }) := by
  refine ⟨?_, ?_, ?_, ?_⟩ <;> intro s h <;>
    simp [PlayerMovement.jump, PlayerMovementV2.jump, h]

/-- Witness for C8: an airborne (falling) body is returned unchanged by
both variants; a grounded body receives the +8 vertical impulse. -/
theorem C8_witness :
    PlayerMovement.jump ⟨false, ⟨1, 2, 3⟩, MovementState.FALLING⟩ =
        ⟨false, ⟨1, 2, 3⟩, MovementState.FALLING⟩ ∧
      PlayerMovementV2.jump ⟨false, ⟨1, 2, 3⟩, MovementState.FALLING⟩ =
        ⟨false, ⟨1, 2, 3⟩, MovementState.FALLING⟩ ∧
      PlayerMovement.jump ⟨true, ⟨0, 0, 0⟩, MovementState.IDLE⟩ =
        ⟨true, ⟨0, 0 + PlayerMovement.jumpForce, 0⟩, MovementState.IDLE⟩ :=
  ⟨C8_airborne_jump_dropped.1 _ rfl, C8_airborne_jump_dropped.2.1 _ rfl,
    C8_airborne_jump_dropped.2.2.1 _ rfl⟩

/-- C9: `InputManager.getMovementVector` (`src/unnamed/part_005`) returns
either the zero vector (no movement key held, or opposing keys
cancelling) or a vector of Euclidean length exactly 1; in particular the
forward+right diagonal is normalized to `(1/√2, 1/√2)`, never faster than
an axis-aligned input. -/
theorem C9_movement_vector_unit :
    (∀ left right forward backward : Bool,
        InputManager.getMovementVector left right forward backward = (0, 0) ∨
          Real.sqrt
              ((InputManager.getMovementVector left right forward backward).1 ^ 2 +
                (InputManager.getMovementVector left right forward backward).2 ^ 2) =
            1) ∧
    InputManager.getMovementVector false true true false =
      (1 / Real.sqrt 2, 1 / Real.sqrt 2) := by
  constructor
  · intro l r f b
    have key : ∀ x z : ℝ,
        (if Real.sqrt (x * x + z * z) > 0
          then ((x / Real.sqrt (x * x + z * z), z / Real.sqrt (x * x + z * z)) : ℝ × ℝ)
          else (x, z)) = (0, 0) ∨
          Real.sqrt (((if Real.sqrt (x * x + z * z) > 0
              then ((x / Real.sqrt (x * x + z * z), z / Real.sqrt (x * x + z * z)) : ℝ × ℝ)
              else (x, z))).1 ^ 2 +
            ((if Real.sqrt (x * x + z * z) > 0
              then ((x / Real.sqrt (x * x + z * z), z / Real.sqrt (x * x + z * z)) : ℝ × ℝ)
              else (x, z))).2 ^ 2) = 1 := by
      intro x z
      by_cases hL : Real.sqrt (x * x + z * z) > 0
      · right
        rw [if_pos hL]
        have hnn : (0 : ℝ) ≤ x * x + z * z :=
          add_nonneg (mul_self_nonneg x) (mul_self_nonneg z)
        have hs : Real.sqrt (x * x + z * z) ^ 2 = x * x + z * z := Real.sq_sqrt hnn
        have hpos : (0 : ℝ) < x * x + z * z := by
          rcases lt_or_eq_of_le hnn with hp | he
          · exact hp
          · exfalso
            rw [← he, Real.sqrt_zero] at hL
            exact lt_irrefl 0 hL
        have hplus : (x / Real.sqrt (x * x + z * z)) ^ 2 +
            (z / Real.sqrt (x * x + z * z)) ^ 2 = 1 := by
          rw [div_pow, div_pow, hs]
          field_simp
          ring
        show Real.sqrt ((x / Real.sqrt (x * x + z * z)) ^ 2 +
            (z / Real.sqrt (x * x + z * z)) ^ 2) = 1
        rw [hplus, Real.sqrt_one]
      · left
        rw [if_neg hL]
        have h0 : Real.sqrt (x * x + z * z) = 0 :=
          le_antisymm (not_lt.mp hL) (Real.sqrt_nonneg _)
        have hnn : (0 : ℝ) ≤ x * x + z * z :=
          add_nonneg (mul_self_nonneg x) (mul_self_nonneg z)
        have hxz : x * x + z * z = 0 := le_antisymm (Real.sqrt_eq_zero'.mp h0) hnn
        have hxx : x * x = 0 := by nlinarith [mul_self_nonneg x, mul_self_nonneg z]
        have hzz : z * z = 0 := by nlinarith [mul_self_nonneg x, mul_self_nonneg z]
        rw [mul_self_eq_zero.mp hxx, mul_self_eq_zero.mp hzz]
    exact key _ _
  · unfold InputManager.getMovementVector
    norm_num

/-- Helper: every camera operation leaves the target zoom distance inside
the (post-operation) configured bounds, provided those bounds are sane
and the distance was in bounds before (the clamping operations do not
even need the precondition; `setHeight` does not touch the distance). -/
theorem applyCameraOp_inBounds (s : CameraState) (op : CameraOp)
    (hpre : zoomInBounds s)
    (hcfg : (applyCameraOp s op).config.minDistance ≤
      (applyCameraOp s op).config.maxDistance) :
    zoomInBounds (applyCameraOp s op) := by
  cases op with
  | scroll delta => exact ⟨le_max_left _ _, max_le hcfg (min_le_left _ _)⟩
  | setZoom d => exact ⟨le_max_left _ _, max_le hcfg (min_le_left _ _)⟩
  | setHeight hh => exact hpre
  | updateConfig p => exact ⟨le_max_left _ _, max_le hcfg (min_le_left _ _)⟩

/-- Helper: folding any sequence of camera operations keeps the target
zoom distance in bounds, as long as the configuration stays sane after
every prefix. -/
theorem applyCameraOps_inBounds :
    ∀ (ops : List CameraOp) (s : CameraState), zoomInBounds s →
      (∀ n, n ≤ ops.length → cfgValid (applyCameraOps s (ops.take n))) →
      zoomInBounds (applyCameraOps s ops) := by
  intro ops
  induction ops with
  | nil =>
      intro s h _
      exact h
  | cons op rest ih =>
      intro s hs hcfg
      have h1 : cfgValid (applyCameraOp s op) := by
        have := hcfg 1 (by simp)
        simpa [applyCameraOps] using this
      have hstep : zoomInBounds (applyCameraOp s op) :=
        applyCameraOp_inBounds s op hs h1
      have hrest : ∀ n, n ≤ rest.length →
          cfgValid (applyCameraOps (applyCameraOp s op) (rest.take n)) := by
        intro n hn
        have := hcfg (n + 1) (by simpa using Nat.succ_le_succ hn)
        simpa [applyCameraOps, List.take_succ_cons] using this
      have hfold : applyCameraOps s (op :: rest) =
          applyCameraOps (applyCameraOp s op) rest := by
        simp [applyCameraOps]
      rw [hfold]
      exact ih (applyCameraOp s op) hstep hrest

/-- C10: the target zoom distance of `ThirdPersonCamera`
(`src/unnamed/part_003`) always stays within
`[config.minDistance, config.maxDistance]`: the scroll handler and
`setZoom` clamp before storing, `updateConfig` re-clamps after changing
the limits, and therefore no sequence of zoom operations starting from
the initial state moves the target distance out of the (sane) configured
bounds. -/
theorem C10_zoom_within_bounds :
    (∀ (s : CameraState) (delta : ℚ), cfgValid s →
        zoomInBounds (ThirdPersonCamera.onScrollChange delta s)) ∧
    (∀ (s : CameraState) (d : ℚ), cfgValid s →
        zoomInBounds (ThirdPersonCamera.setZoom d s)) ∧
    (∀ (s : CameraState) (p : CameraConfigPatch),
        cfgValid (ThirdPersonCamera.updateConfig p s) →
        zoomInBounds (ThirdPersonCamera.updateConfig p s)) ∧
    (∀ ops : List CameraOp,
        (∀ n, n ≤ ops.length →
          cfgValid (applyCameraOps ThirdPersonCamera.init (ops.take n))) →
        zoomInBounds (applyCameraOps ThirdPersonCamera.init ops)) := by
  refine ⟨?_, ?_, ?_, ?_⟩
  · intro s delta h
    exact ⟨le_max_left _ _, max_le h (min_le_left _ _)⟩
  · intro s d h
    exact ⟨le_max_left _ _, max_le h (min_le_left _ _)⟩
  · intro s p h
    exact ⟨le_max_left _ _, max_le h (min_le_left _ _)⟩
  · intro ops h
    exact applyCameraOps_inBounds ops ThirdPersonCamera.init
      (by constructor <;> norm_num [ThirdPersonCamera.init, ThirdPersonCamera.defaultConfig]) h

/-- Witness for C10: a far-too-large `setZoom(100)` request is clamped
into the default bounds, and a two-operation sequence that then shrinks
`maxDistance` to 5 keeps the target distance in bounds. -/
theorem C10_witness :
    zoomInBounds (ThirdPersonCamera.setZoom 100 ThirdPersonCamera.init) ∧
      zoomInBounds (applyCameraOps ThirdPersonCamera.init
        [CameraOp.setZoom 100,
         CameraOp.updateConfig ⟨none, some 5, none, none, none, none, none⟩]) := by
  constructor
  · exact C10_zoom_within_bounds.2.1 ThirdPersonCamera.init 100
      (by norm_num [cfgValid, ThirdPersonCamera.init, ThirdPersonCamera.defaultConfig])
  · refine C10_zoom_within_bounds.2.2.2 _ ?_
    intro n hn
    simp only [List.length_cons, List.length_nil] at hn
    interval_cases n <;>
      norm_num [cfgValid, applyCameraOps, applyCameraOp, ThirdPersonCamera.setZoom,
        ThirdPersonCamera.updateConfig, CameraConfig.merge, ThirdPersonCamera.init,
        ThirdPersonCamera.defaultConfig]
